import Mathlib

/-!
Verification development for the devteam repository.

This file gives a shallow embedding, in Lean 4, of the parts of the code that
the specification's testable claims are about:

* `src/core/agent_tools.py` — sandboxed path validation, file access, and
  allow-listed command execution (`AgentTools`);
* `src/core/claude_agent.py` — the per-agent task state machine and status
  report (`ClaudeAgent`);
* `src/agents/api.py` — the `/complete` HTTP route;
* `src/core/orchestrator.py` — `PortConfig` port allocation;
* `src/core/project_config.py` — agent-id derivation and collision handling;
* `src/core/conversation_history.py` — the rolling per-role history store;
* `src/core/telegram_bridge.py` and `src/telegram_bridge/bridge.py` — chat
  message routing and long-message splitting.

Modelling conventions: Python `datetime` values are integers (seconds);
machine state (file system, HTTP peers, subprocess execution) is passed
explicitly or supplied as an oracle function; Python exceptions are
`Except PyError`; `None`-returning fallible operations are `Option`.
Python string operations that Lean implements with non-reducing byte
positions (`str.lower`, `str.replace`, `str.split`) are re-implemented
over the character list, which coincides with Python semantics for the
ASCII data handled here.
-/

set_option maxRecDepth 8000

/-! ## String and list utilities shared by the models -/

/-- Lexicographic comparison on strings by code point, as Python compares
strings for `sorted`. -/
def strLeb (a b : String) : Bool :=
  go a.data b.data
where
  go : List Char → List Char → Bool
    | [], _ => true
    | _ :: _, [] => false
    | c :: cs, d :: ds => if c = d then go cs ds else decide (c.toNat ≤ d.toNat)

/-- Insert a string into an already sorted list (used to model Python
`sorted`). -/
def insortStr (s : String) : List String → List String
  | [] => [s]
  | t :: ts => if strLeb s t then s :: t :: ts else t :: insortStr s ts

/-- Python `sorted` on a list of strings (stable; same result as any sort by
the total code-point order). -/
def sortStrings (l : List String) : List String := l.foldr insortStr []

/-- Python `str.split()` with no argument: split on runs of whitespace,
dropping empty tokens. -/
def pySplitWs (s : String) : List String :=
  go s.data []
where
  go : List Char → List Char → List String
    | [], cur => if cur.isEmpty then [] else [String.mk cur.reverse]
    | c :: cs, cur =>
      if c.isWhitespace then
        if cur.isEmpty then go cs [] else String.mk cur.reverse :: go cs []
      else go cs (c :: cur)

/-- Whether `needle` occurs as a contiguous run inside `hay`
(Python `needle in hay` on strings, on the character level). -/
def hasRun (hay needle : List Char) : Bool :=
  match hay with
  | [] => needle.isEmpty
  | _ :: t => needle.isPrefixOf hay || hasRun t needle

/-- Python `needle in hay` for strings. -/
def containsStr (hay needle : String) : Bool := hasRun hay.data needle.data

/-- Python `str.lower()` (ASCII-adequate model). -/
def pyLower (s : String) : String := String.mk (s.data.map Char.toLower)

/-- Python `str.upper()` (ASCII-adequate model). -/
def pyUpper (s : String) : String := String.mk (s.data.map Char.toUpper)

/-- Python `name.replace(' ', '-')`: a single-character substitution. -/
def spacesToDashes (s : String) : String :=
  String.mk (s.data.map (fun c => if c = ' ' then '-' else c))

/-- Python `str.startswith` (character-level). -/
def pyStartsWith (s t : String) : Bool := t.data.isPrefixOf s.data

/-- The last `n` elements of a list (Python `l[-n:]` for `n > 0`). -/
def lastN (n : Nat) (l : List α) : List α := l.drop (l.length - n)

/-! ## Path model for `AgentTools` (src/core/agent_tools.py)

A Python `Path` is modelled as an absolute/relative flag plus its component
list.  `Path.resolve()` is modelled lexically: `..` pops a component and `.`
disappears.  The claims quantify over paths *after* resolution, so symlink
indirection (which the OS applies inside `resolve()`) needs no separate
model: it only changes which resolved path a name maps to. -/

structure PyPath where
  absolute : Bool
  parts : List String
deriving DecidableEq

/-- One step of lexical `..` / `.` elimination. -/
def normStep (acc : List String) (part : String) : List String :=
  if part = ".." then acc.dropLast
  else if part = "." then acc
  else acc ++ [part]

/-- Lexical resolution of an absolute component list (`Path.resolve()`). -/
def normalizeParts (parts : List String) : List String := parts.foldl normStep []

/-- `b.relative_to(a)` succeeds exactly when `a` is a leading run of `b`. -/
def startsList : List String → List String → Bool
  | [], _ => true
  | _ :: _, [] => false
  | a :: as, b :: bs => a == b && startsList as bs

/-- A component list with no `..` or `.` entries (any `resolve()` output). -/
def dotFree (l : List String) : Prop := ∀ s ∈ l, s ≠ ".." ∧ s ≠ "."

/-- Render an absolute component list the way Python prints a `Path`. -/
def renderAbs (parts : List String) : String := "/" ++ String.intercalate "/" parts

/-- Render a path argument as Python would interpolate it. -/
def renderPyPath (p : PyPath) : String :=
  (if p.absolute then "/" else "") ++ String.intercalate "/" p.parts

/-- Render a list of allowed paths the way Python prints a list of
strings. -/
def renderPathList (paths : List (List String)) : String :=
  "[" ++ String.intercalate ", " (paths.map (fun a => "\x27" ++ renderAbs a ++ "\x27")) ++ "]"

deriving instance DecidableEq for Except

/-- The Python exceptions the modelled code can raise. -/
inductive PyError
  | valueError (msg : String)
  | fileNotFound (msg : String)
deriving DecidableEq

/-- The message of the `ValueError` raised by `AgentTools._validate_path`
(`agent_tools.py` line 70), with the interpolations made explicit. -/
def violationMsg (pathStr wsStr allowedStr : String) : String :=
  "Path " ++ (pathStr ++ (" is outside workspace and not in allowed paths. Agent can access: " ++
    (wsStr ++ (" and " ++ allowedStr))))

/-- `AgentTools` configuration: the workspace root (an absolute component
list), the extra allowed absolute paths, and the allowed command list. -/
structure AgentTools where
  workspace_path : List String
  allowed_paths : List (List String)
  allowed_commands : List String

/-- The `AgentTools.__init__` constructor: `allowed_paths or []` and
`allowed_commands or []` collapse both `None` and `[]` to `[]`. -/
def AgentTools.make (workspace : List String)
    (paths : Option (List (List String))) (commands : Option (List String)) : AgentTools :=
  { workspace_path := workspace
    allowed_paths := paths.getD []
    allowed_commands := commands.getD [] }

/-- Resolution of the input path in `_validate_path`: an absolute path is
resolved as-is; a relative one is resolved against the workspace root. -/
def resolveInput (t : AgentTools) (p : PyPath) : List String :=
  if p.absolute then normalizeParts p.parts else normalizeParts (t.workspace_path ++ p.parts)

/-- `AgentTools._validate_path` (agent_tools.py lines 19-70): accept a path
inside the resolved workspace, else inside some resolved allowed path, else
literally listed among the allowed paths; otherwise raise the
path-violation `ValueError`. -/
def validatePath (t : AgentTools) (p : PyPath) : Except PyError (List String) :=
  let resolved_path := resolveInput t p
  let resolved_workspace := normalizeParts t.workspace_path
  if startsList resolved_workspace resolved_path then
    .ok resolved_path
  else
    match t.allowed_paths.find? (fun a => startsList (normalizeParts a) resolved_path) with
    | some _ => .ok resolved_path
    | none =>
      if t.allowed_paths.any (fun a => a == resolved_path) then .ok resolved_path
      else
        .error (.valueError (violationMsg (renderPyPath p) (renderAbs t.workspace_path)
          (renderPathList t.allowed_paths)))

/-- A file-system node: a regular file with text content, or a directory. -/
inductive FsNode
  | file (content : String)
  | dir
deriving DecidableEq

/-- A file system: a finite map from resolved absolute paths to nodes. -/
structure Fs where
  entries : List (List String × FsNode)
deriving DecidableEq

/-- Look up a resolved path. -/
def fsGet (fs : Fs) (p : List String) : Option FsNode :=
  (fs.entries.find? (fun e => e.1 == p)).map (·.2)

/-- Write a file node at a resolved path (overwrite or append). -/
def fsSet (fs : Fs) (p : List String) (n : FsNode) : Fs :=
  ⟨(fs.entries.filter (fun e => e.1 ≠ p)) ++ [(p, n)]⟩

/-- The direct children of a directory, in file-system order (`iterdir`). -/
def fsChildren (fs : Fs) (d : List String) : List (String × FsNode) :=
  fs.entries.filterMap (fun e =>
    if e.1.length = d.length + 1 && startsList d e.1 then
      (e.1.getLast?).map (fun name => (name, e.2))
    else none)

/-- `AgentTools.read_file`: validate, require existence, return content.
Reading a directory is modelled as the `IsADirectoryError` Python raises,
folded into `valueError` (no claim distinguishes it). -/
def read_file (t : AgentTools) (fs : Fs) (p : PyPath) : Except PyError String :=
  (validatePath t p).bind fun rp =>
    match fsGet fs rp with
    | some (.file c) => .ok c
    | some .dir => .error (.valueError ("Is a directory: " ++ renderAbs rp))
    | none => .error (.fileNotFound ("File not found: " ++ renderAbs rp))

/-- `AgentTools.write_file`: validate, write, report. Parent-directory
creation (`mkdir(parents=True)`) is modelled by `fsSet` making the file
reachable at its resolved path. -/
def write_file (t : AgentTools) (fs : Fs) (p : PyPath) (content : String) :
    Except PyError (String × Fs) :=
  (validatePath t p).bind fun rp =>
    .ok ("File written: " ++ renderAbs rp, fsSet fs rp (.file content))

/-- `item.relative_to(base)` for absolute `item` and `base`: Python raises
`ValueError` when `base` is not an ancestor. -/
def relativeTo (p base : List String) : Except PyError (List String) :=
  if startsList base p then .ok (p.drop base.length)
  else .error (.valueError (renderAbs p ++ " is not in the subpath of " ++ renderAbs base))

/-- How `AgentTools.list_files` renders one directory entry: files become
their path relative to the *raw* workspace root, non-dot directories get a
trailing `/`, dot-directories are skipped (`none`). The `relative_to` call
raises for entries outside the workspace root. -/
def entryRender (t : AgentTools) (d : List String) :
    String × FsNode → Except PyError (Option String)
  | (name, .file _) =>
    (relativeTo (d ++ [name]) t.workspace_path).bind fun rel =>
      .ok (some (String.intercalate "/" rel))
  | (name, .dir) =>
    if pyStartsWith name "." then .ok none
    else
      (relativeTo (d ++ [name]) t.workspace_path).bind fun rel =>
        .ok (some (String.intercalate "/" rel ++ "/"))

/-- `AgentTools.list_files` (agent_tools.py lines 86-99). -/
def list_files (t : AgentTools) (fs : Fs) (p : PyPath) : Except PyError (List String) :=
  (validatePath t p).bind fun rp =>
    match fsGet fs rp with
    | some .dir =>
      ((fsChildren fs rp).foldlM (fun acc e =>
        (entryRender t rp e).map (fun o => acc ++ o.toList)) []).bind fun files =>
        .ok (sortStrings files)
    | _ => .error (.valueError ("Not a directory: " ++ renderAbs rp))

/-- The record `AgentTools.get_file_info` returns: either the bare
`{"exists": False}` or the full record (the `modified` timestamp is not
modelled; no claim mentions it). -/
inductive FileInfo
  | absent
  | info (is_file is_dir : Bool) (size : Nat) (relative_path : String)
deriving DecidableEq

/-- `AgentTools.get_file_info` (agent_tools.py lines 198-212): validates,
returns `absent` for a missing path, and otherwise computes the path
relative to the raw workspace root — which raises for a path that was
admitted through an allowed path outside the workspace. -/
def get_file_info (t : AgentTools) (fs : Fs) (p : PyPath) : Except PyError FileInfo :=
  (validatePath t p).bind fun rp =>
    match fsGet fs rp with
    | none => .ok .absent
    | some (.file c) =>
      (relativeTo rp t.workspace_path).bind fun rel =>
        .ok (.info true false c.length (String.intercalate "/" rel))
    | some .dir =>
      (relativeTo rp t.workspace_path).bind fun rel =>
        .ok (.info false true 0 (String.intercalate "/" rel))

/-- The fixed default command allow-list in `AgentTools.execute_command`
(agent_tools.py lines 107-119), used when the instance's list is empty. -/
def defaultAllowedCommands : List String :=
  ["git", "ls", "cat", "grep", "find", "npm", "yarn", "python", "node",
   "mkdir", "touch", "rm", "cp", "mv",
   "pytest", "python -m pytest", "poetry", "pip",
   "jest", "mocha", "vitest",
   "go", "cargo",
   "make", "bash", "sh",
   "coverage", "nyc",
   "tox", "nox",
   "phpunit", "rspec",
   "dotnet", "mvn", "gradle"]

/-- Outcome of actually running a shell command (the `subprocess.run`
oracle). -/
inductive ExecOutcome
  | completed (returncode : Int) (stdout stderr : String)
  | timedOut
  | exn (msg : String)

/-- The dictionary `execute_command` returns. -/
inductive RunReply
  | finished (success : Bool) (stdout stderr : String) (returncode : Int)
  | failed (error : String)
deriving DecidableEq

/-- The `cmd_start` computation of `execute_command`: the first token, or
the 3-token form for a `python -m X` invocation. -/
def cmdStart (first : String) (rest : List String) : String :=
  match rest with
  | m :: mod3 :: _ =>
    if first = "python" && m = "-m" then "python -m " ++ mod3 else first
  | _ => first

/-- `AgentTools.execute_command` (agent_tools.py lines 101-170), with the
subprocess modelled by `runner`.  The second component of the result is the
list of command lines actually handed to a subprocess, so a rejected
command provably spawns nothing. -/
def execute_command (t : AgentTools) (runner : String → ExecOutcome) (command : String)
    (cwd : Option PyPath) : Except PyError RunReply × List String :=
  let allowed_commands := if t.allowed_commands ≠ [] then t.allowed_commands
                          else defaultAllowedCommands
  let cmd_parts := pySplitWs command
  match cmd_parts with
  | [] => (.error (.valueError "Empty command"), [])
  | first :: restParts =>
    let cmd_start := cmdStart first restParts
    let is_allowed := allowed_commands.any (fun allowed =>
      cmd_start == allowed ||
        (["python", "node", "poetry", "pip", "npm", "yarn"].contains allowed &&
          cmd_start == allowed))
    if !is_allowed then
      (.error (.valueError ("Command not allowed: " ++ cmd_start)), [])
    else
      match cwd with
      | some c =>
        match validatePath t c with
        | .error e => (.error e, [])
        | .ok _ => (runOutcome runner command, [command])
      | none => (runOutcome runner command, [command])
where
  runOutcome (runner : String → ExecOutcome) (command : String) : Except PyError RunReply :=
    match runner command with
    | .completed rc out err => .ok (.finished (rc == 0) out err rc)
    | .timedOut => .ok (.failed "Command timed out after 30 seconds")
    | .exn m => .ok (.failed m)

/-! ## `ClaudeAgent` task state machine (src/core/claude_agent.py) -/

/-- The six fixed agent roles. -/
inductive AgentRole
  | frontend | backend | database | qa | ba | teamlead
deriving DecidableEq

/-- The string value of a role (it is a `str`-valued enum in Python). -/
def AgentRole.value : AgentRole → String
  | .frontend => "frontend"
  | .backend => "backend"
  | .database => "database"
  | .qa => "qa"
  | .ba => "ba"
  | .teamlead => "teamlead"

/-- AgentTask lifecycle states. -/
inductive TaskStatus
  | todo | in_progress | review | done | blocked
deriving DecidableEq

/-- A unit of work (source name `Task`, which Lean reserves). Timestamps are seconds. -/
structure AgentTask where
  id : String
  title : String
  description : String
  status : TaskStatus := .todo
  assigned_to : Option String := none
  github_issue_number : Option Int := none
  created_at : Int
  updated_at : Int
deriving DecidableEq

/-- The fields of `AgentSettings` that the modelled operations read. -/
structure AgentSettings where
  role : AgentRole
  port : Nat
  model : String := "claude-3-5-sonnet-20241022"
  claude_file : String := "claude.md"
deriving DecidableEq

/-- In-process agent state (`AgentState`). The unbounded message log is
kept abstract as a count (no claim reads messages). -/
structure AgentState where
  current_task : Option AgentTask := none
  task_history : List AgentTask := []
  last_activity : Int
  total_tokens_used : Nat := 0
deriving DecidableEq

/-- `ClaudeAgent.__init__`: a fresh agent has no current task, no history,
and `last_activity = now`. -/
def initialAgentState (now : Int) : AgentState :=
  { last_activity := now }

/-- `ClaudeAgent.assign_task`: sets the task as current, stamps
`assigned_to` with the agent's role, moves it to `in_progress`, and updates
its timestamp (the Python code mutates the one shared `AgentTask` object). -/
def assign_task (settings : AgentSettings) (s : AgentState) (t : AgentTask) (now : Int) : AgentState :=
  let t := { t with assigned_to := some settings.role.value
                    status := .in_progress
                    updated_at := now }
  { s with current_task := some t }

/-- `ClaudeAgent.complete_task`: if a task is active, mark it done, append
it to the history, clear it and return it; otherwise return `None`. -/
def complete_task (s : AgentState) (now : Int) : Option AgentTask × AgentState :=
  match s.current_task with
  | some t =>
    let t := { t with status := .done, updated_at := now }
    (some t, { s with current_task := none, task_history := s.task_history ++ [t] })
  | none => (none, s)

/-- The dictionary `ClaudeAgent.get_status` returns. -/
structure StatusReport where
  role : String
  port : Nat
  model : String
  current_task : Option AgentTask
  task_history_count : Nat
  last_activity : Int
  total_tokens_used : Nat
  health : String
deriving DecidableEq

/-- Python's `timedelta.seconds` attribute: the seconds component after
whole days are removed — `delta mod 86400`, in `[0, 86400)`. -/
def timedeltaSeconds (delta : Int) : Int := delta % 86400

/-- `ClaudeAgent.get_status` (claude_agent.py lines 221-231). Note the
health test uses `(now - last_activity).seconds`, the *component*, not
`total_seconds()`. -/
def get_status (settings : AgentSettings) (s : AgentState) (now : Int) : StatusReport :=
  { role := settings.role.value
    port := settings.port
    model := settings.model
    current_task := s.current_task
    task_history_count := s.task_history.length
    last_activity := s.last_activity
    total_tokens_used := s.total_tokens_used
    health := if timedeltaSeconds (now - s.last_activity) < 300 then "active" else "idle" }

/-- The response of the `/complete` route (agents/api.py lines 53-59):
either `{status: "completed", task}` or an `HTTPException(400, ...)`. -/
def completeRoute (s : AgentState) (now : Int) :
    Except (Nat × String) (String × AgentTask) × AgentState :=
  match complete_task s now with
  | (some t, s2) => (.ok ("completed", t), s2)
  | (none, s2) => (.error (400, "No active task to complete"), s2)

/-! ## `PortConfig` port allocation (src/core/orchestrator.py lines 22-41) -/

/-- The port allocator: a start port, a pool size, and the role → port
map (an association list standing for the Python dict). -/
structure PortConfig where
  start_port : Nat := 8300
  max_agents : Nat := 20
  allocated_ports : List (String × Nat) := []
deriving DecidableEq

/-- Dict lookup. -/
def portLookup (c : PortConfig) (role : String) : Option Nat :=
  (c.allocated_ports.find? (fun e => e.1 == role)).map (·.2)

/-- Dict values. -/
def usedPorts (c : PortConfig) : List Nat := c.allocated_ports.map (·.2)

/-- The `for port in range(start, start + max)` scan: the first port in the
window of `n` ports starting at `p` that is not in `used`. -/
def scanFree (used : List Nat) : Nat → Nat → Option Nat
  | _, 0 => none
  | p, n + 1 => if used.contains p then scanFree used (p + 1) n else some p

/-- `PortConfig.allocate_port`: idempotent per role; otherwise
first-available linear scan; exhaustion raises `"No available ports"`. -/
def allocate_port (c : PortConfig) (role : String) : Except String (Nat × PortConfig) :=
  match portLookup c role with
  | some p => .ok (p, c)
  | none =>
    match scanFree (usedPorts c) c.start_port c.max_agents with
    | some p => .ok (p, { c with allocated_ports := c.allocated_ports ++ [(role, p)] })
    | none => .error "No available ports"

/-- `PortConfig.release_port`: drop the role's entry if present. -/
def release_port (c : PortConfig) (role : String) : PortConfig :=
  { c with allocated_ports := c.allocated_ports.filter (fun e => e.1 ≠ role) }

/-- Allocate a list of roles in order, failing on the first exhaustion. -/
def allocateMany (c : PortConfig) : List String → Except String PortConfig
  | [] => .ok c
  | r :: rs => (allocate_port c r).bind fun pr => allocateMany pr.2 rs

/-! ## Project configuration and agent ids (src/core/project_config.py) -/

/-- `AgentInfo` (project_config.py lines 25-38): the fields the claims
read. -/
structure AgentInfo where
  role : String
  name : String
  status : String := "active"
  workspace : String
  last_active : Int
  created_at : Int
deriving DecidableEq

/-- `AgentInfo.agent_id`: `f"{role}-{name.lower().replace(' ', '-')}"` —
only the *name* is lower-cased. -/
def AgentInfo.agent_id (a : AgentInfo) : String :=
  a.role ++ "-" ++ spacesToDashes (pyLower a.name)

/-- The per-agent permission set (agent_config.py lines 9-51); fields not
read by any claim are omitted (`AgentSettings` resource limits, float
temperature). -/
structure AgentPermissions where
  allowed_paths : List String := []
  allowed_commands : List String :=
    ["git", "ls", "cat", "grep", "find", "npm", "yarn", "python", "node",
     "mkdir", "touch", "rm", "cp", "mv", "pytest", "jest", "vitest"]
deriving DecidableEq

/-- A per-agent configuration record (agent_config.py lines 99-116,
restricted to the data the modelled operations touch). -/
structure AgentConfiguration where
  agent_id : String
  permissions : AgentPermissions := {}
deriving DecidableEq

/-- `AgentConfiguration.get_default_for_role` (agent_config.py lines
137-186): role-based extra allowed paths and commands. -/
def AgentConfiguration.get_default_for_role (agent_id role : String) : AgentConfiguration :=
  let base : AgentConfiguration := { agent_id := agent_id }
  if role = "frontend" then
    { base with permissions :=
      { allowed_paths :=
          ["/Users/maxim/dev/experimental/devteam/web/frontend",
           "/Users/maxim/dev/experimental/devteam/web/frontend/src",
           "/Users/maxim/dev/experimental/devteam/web/frontend/public"]
        allowed_commands := base.permissions.allowed_commands ++
          ["npm", "yarn", "vite", "eslint", "prettier"] } }
  else if role = "backend" then
    { base with permissions :=
      { allowed_paths :=
          ["/Users/maxim/dev/experimental/devteam/web/backend",
           "/Users/maxim/dev/experimental/devteam/core",
           "/Users/maxim/dev/experimental/devteam/agents"]
        allowed_commands := base.permissions.allowed_commands ++
          ["poetry", "uvicorn", "pytest", "black", "ruff"] } }
  else if role = "qa" then
    { base with permissions :=
      { allowed_paths :=
          ["/Users/maxim/dev/experimental/devteam/web",
           "/Users/maxim/dev/experimental/devteam/tests"]
        allowed_commands := base.permissions.allowed_commands ++
          ["pytest", "coverage", "playwright", "cypress"] } }
  else if role = "devops" then
    { base with permissions :=
      { allowed_paths :=
          ["/Users/maxim/dev/experimental/devteam",
           "/Users/maxim/dev/experimental/devteam/scripts",
           "/Users/maxim/dev/experimental/devteam/.github"]
        allowed_commands := base.permissions.allowed_commands ++
          ["docker", "docker-compose", "kubectl", "terraform"] } }
  else base

/-- The slice of `ProjectConfig` state that `add_agent` reads and writes
(`save()` persists the same data to disk; the claims are about the ids). -/
structure ProjectState where
  active_agents : List (String × AgentInfo) := []
  agent_configurations : List (String × AgentConfiguration) := []
deriving DecidableEq

/-- Key membership in an association list (Python `key in dict`). -/
def keyMem (l : List (String × α)) (k : String) : Bool :=
  l.any (fun e => e.1 == k)

/-- The `while f"{agent_id}-{counter}" in self.active_agents` loop of
`add_agent`, with fuel one larger than the map size (within which a free
suffix always exists, so the fuel never runs out on reachable states). -/
def findSuffixed (keys : List (String × AgentInfo)) (base : String) : Nat → Nat → String
  | 0, c => base ++ "-" ++ toString c
  | fuel + 1, c =>
    if keyMem keys (base ++ "-" ++ toString c) then findSuffixed keys base fuel (c + 1)
    else base ++ "-" ++ toString c

/-- `ProjectConfig.add_agent` (project_config.py lines 151-177): derive the
id, de-duplicate with a numeric suffix, register the agent, seed a default
configuration if absent. -/
def add_agent (p : ProjectState) (role name workspace_path : String) (now : Int) :
    String × ProjectState :=
  let agent : AgentInfo :=
    { role := role, name := name, workspace := workspace_path,
      last_active := now, created_at := now }
  let base := agent.agent_id
  let agent_id :=
    if keyMem p.active_agents base then
      findSuffixed p.active_agents base (p.active_agents.length + 1) 1
    else base
  let p := { p with active_agents := p.active_agents ++ [(agent_id, agent)] }
  let p :=
    if keyMem p.agent_configurations agent_id then p
    else { p with agent_configurations := p.agent_configurations ++
            [(agent_id, AgentConfiguration.get_default_for_role agent_id role)] }
  (agent_id, p)

/-! ## Conversation history store (src/core/conversation_history.py) -/

/-- One history record (`context` is the JSON object stored with it). -/
structure HistEntry where
  timestamp : Int
  user_message : String
  agent_response : String
  context : List (String × String) := []
deriving DecidableEq

/-- A history file on disk: parseable JSON or corrupt bytes. -/
inductive HistFile
  | valid (entries : List HistEntry)
  | corrupt
deriving DecidableEq

/-- The storage directory: file name → contents. -/
structure HistDir where
  files : List (String × HistFile) := []
deriving DecidableEq

/-- `ConversationHistory.get_agent_history_file`. -/
def historyFileName (agent_role : String) : String := agent_role ++ "_history.json"

/-- Read a stored file. -/
def histGet (d : HistDir) (name : String) : Option HistFile :=
  (d.files.find? (fun e => e.1 == name)).map (·.2)

/-- Overwrite a stored file. -/
def histPut (d : HistDir) (name : String) (f : HistFile) : HistDir :=
  ⟨(d.files.filter (fun e => e.1 ≠ name)) ++ [(name, f)]⟩

/-- `ConversationHistory.load_agent_history` (lines 48-59): empty list,
without raising, for a missing or unparseable file. -/
def load_agent_history (d : HistDir) (agent_role : String) : List HistEntry :=
  match histGet d (historyFileName agent_role) with
  | none => []
  | some .corrupt => []
  | some (.valid l) => l

/-- `ConversationHistory.add_message` (lines 22-46): load, append a
timestamped record, truncate to the most recent 50, rewrite the file. -/
def add_message (d : HistDir) (agent_role user_message agent_response : String)
    (context : Option (List (String × String))) (now : Int) : HistDir :=
  let history := load_agent_history d agent_role
  let entry : HistEntry :=
    { timestamp := now, user_message := user_message,
      agent_response := agent_response, context := context.getD [] }
  let history := history ++ [entry]
  let history := if history.length > 50 then lastN 50 history else history
  histPut d (historyFileName agent_role) (.valid history)

/-! ## Telegram bridges

`src/core/telegram_bridge.py` (`_handle_message`): mention parsing, agent
lookup, the `/ask` relay and fixed-width splitting of long replies.
`src/telegram_bridge/bridge.py` (`send_message`): paragraph-boundary
splitting with `[i/n]` suffixes. -/

/-- A registered agent: role ↦ (url, port). -/
def BridgeRegistry := List (String × String × Nat)

/-- `re` word character (`\w`), restricted to the ASCII data modelled. -/
def isWordChar (c : Char) : Bool := c.isAlphanum || c == '_'

/-- The anchored pattern match `re.match(r'@(\w+)\s+(.*)', message)`:
a leading `@`, one-or-more word characters, one-or-more whitespace
characters, then everything up to the end of the line (`.` does not match
a newline). Returns the two capture groups. -/
def parseMention (message : String) : Option (String × String) :=
  match message.data with
  | '@' :: rest =>
    let w := rest.takeWhile isWordChar
    if w.isEmpty then none
    else
      let after := rest.drop w.length
      let sp := after.takeWhile Char.isWhitespace
      if sp.isEmpty then none
      else some (String.mk w, String.mk ((after.drop sp.length).takeWhile (fun c => c ≠ '\n')))
  | _ => none

/-- The agent's answer to a relayed `POST /ask`, as the bridge sees it:
an HTTP status with the optional `response` JSON field, or a transport
exception. -/
inductive AskOutcome
  | ok (status : Nat) (response : Option String)
  | exn (msg : String)

/-- What `_handle_message` did: the `/ask` calls it made (url, message)
and the chat replies it sent, in order. -/
structure BridgeResult where
  asks : List (String × String)
  replies : List String
deriving DecidableEq

/-- `[reply[i:i+4000] for i in range(0, len(reply), 4000)]`, by fuel
(the fuel `l.length` dominates the iteration count). -/
def chunksAux (fuel : Nat) (l : List Char) : List (List Char) :=
  match fuel with
  | 0 => [l]
  | fuel + 1 =>
    if l.length ≤ 4000 then [l] else l.take 4000 :: chunksAux fuel (l.drop 4000)

/-- Fixed-width 4000-character slicing of a reply. -/
def chunks4000 (s : String) : List String :=
  (chunksAux s.data.length s.data).map String.mk

/-- The outbound messages of `_handle_message` for a given composed reply
(telegram_bridge.py lines 148-154): split into fixed 4000-character slices
when the reply exceeds 4000 characters, else send it whole. -/
def splitLongReply (reply : String) : List String :=
  if reply.data.length > 4000 then chunks4000 reply else [reply]

/-- `TelegramBridge._handle_message` (telegram_bridge.py lines 117-161),
with the agent HTTP call supplied as an oracle `ask`. -/
def handle_message (registry : BridgeRegistry) (ask : String → String → AskOutcome)
    (message : String) : BridgeResult :=
  match parseMention message with
  | none => ⟨[], []⟩
  | some (w, agent_message) =>
    let role := pyLower w
    match (registry.find? (fun e => e.1 == role)).map (·.2) with
    | none => ⟨[], ["❌ No agent found for role: " ++ role]⟩
    | some (url, _) =>
      let askUrl := url ++ "/ask"
      match ask askUrl agent_message with
      | .ok 200 data =>
        let agent_response := data.getD "No response"
        let reply := "**" ++ pyUpper role ++ "** responds:\n\n" ++ agent_response
        ⟨[(askUrl, agent_message)], splitLongReply reply⟩
      | .ok status _ =>
        ⟨[(askUrl, agent_message)],
         ["❌ Error from " ++ role ++ " agent: HTTP " ++ toString status]⟩
      | .exn m =>
        ⟨[(askUrl, agent_message)],
         ["❌ Error communicating with " ++ role ++ ": " ++ m]⟩

/-- Python `text.split("\n\n")` (left-to-right, non-overlapping scan for
the two-newline separator, accumulating the current piece reversed). -/
def splitParas : List Char → List Char → List String
  | [], cur => [String.mk cur.reverse]
  | [c], cur => [String.mk (cur.reverse ++ [c])]
  | c :: d :: cs, cur =>
    if c = '\n' ∧ d = '\n' then String.mk cur.reverse :: splitParas cs []
    else splitParas (d :: cs) (c :: cur)

/-- The greedy paragraph accumulation of `bridge.py send_message` (lines
163-180): paragraphs are packed into parts of at most `maxLength`
characters; a single over-long paragraph becomes its own (over-long)
part. -/
def buildPartsAux (maxLength : Nat) : List String → List String → String → List String
  | [], parts, current => if current ≠ "" then parts ++ [current] else parts
  | para :: ps, parts, current =>
    if current.data.length + para.data.length + 2 ≤ maxLength then
      buildPartsAux maxLength ps parts
        (if current ≠ "" then current ++ "\n\n" ++ para else para)
    else
      buildPartsAux maxLength ps (if current ≠ "" then parts ++ [current] else parts) para

/-- The `parts` list of `bridge.py send_message` for an over-long text. -/
def buildParts (text : String) : List String :=
  buildPartsAux 4000 (splitParas text.data []) [] ""

/-- The `[i/n]` suffix appended to each part when several are sent. -/
def partSuffix (i n : Nat) : String :=
  "\n\n[" ++ toString (i + 1) ++ "/" ++ toString n ++ "]"

/-- The `for i, part in enumerate(parts)` send loop: each part gains the
`[i/n]` suffix when more than one part is produced. -/
def withSuffixes (n : Nat) : Nat → List String → List String
  | _, [] => []
  | i, p :: ps => (p ++ (if n > 1 then partSuffix i n else "")) :: withSuffixes n (i + 1) ps

/-- The outbound messages of `bridge.py send_message` (lines 148-191):
short texts go out whole; long texts are split on paragraph boundaries and
each part gains an `[i/n]` suffix when more than one part is produced. -/
def send_message_texts (text : String) : List String :=
  if text.data.length ≤ 4000 then [text]
  else
    let parts := buildParts text
    withSuffixes parts.length 0 parts

/-- Concatenation of the sent chunks (to state that splitting loses no
text). -/
def joinStrings (l : List String) : String := l.foldr (· ++ ·) ""

/-! ## Concrete instances used by witnesses and counterexamples -/

/-- A workspace `/home/dev/ws` with one extra allowed path `/opt/shared`. -/
def c1Tools : AgentTools := AgentTools.make ["home", "dev", "ws"] (some [["opt", "shared"]]) none

/-- The escaping relative path `../../secret.txt` (`"../" * 2 + "secret.txt"`). -/
def c1Path : PyPath := ⟨false, ["..", "..", "secret.txt"]⟩

/-- An empty file system. -/
def emptyFs : Fs := ⟨[]⟩

/-- Python `str.endswith`. -/
def strEndsWith (s t : String) : Bool :=
  t.data == s.data.drop (s.data.length - t.data.length)

/-- Settings of a backend agent on port 8301. -/
def c3Settings : AgentSettings := { role := .backend, port := 8301 }

/-- An agent state whose last activity is at time 0. -/
def c3State : AgentState := { last_activity := 0 }

/-- Pool state after allocating `backend`. -/
def c4c1 : PortConfig := { allocated_ports := [("backend", 8300)] }

/-- Pool state after allocating `backend` and `frontend`. -/
def c4c2 : PortConfig := { allocated_ports := [("backend", 8300), ("frontend", 8301)] }

/-- Pool state after then releasing `backend`. -/
def c4c3 : PortConfig := { allocated_ports := [("frontend", 8301)] }

/-- Pool state after then releasing `frontend` (which frees port 8301). -/
def c4c4 : PortConfig := { allocated_ports := ([] : List (String × Nat)) }

/-- Pool state after the subsequent allocation for `qa`. -/
def c4c5 : PortConfig := { allocated_ports := [("qa", 8300)] }

/-- A full two-slot pool. -/
def c4Full : PortConfig :=
  { start_port := 8300, max_agents := 2, allocated_ports := [("a", 8300), ("b", 8301)] }

/-- A storage directory whose backend history file is unparseable. -/
def c6Corrupt : HistDir := ⟨[("backend_history.json", .corrupt)]⟩

/-- A registry with one backend agent. -/
def c7Registry : BridgeRegistry := [("backend", ("http://localhost:8301", 8301))]

/-- An agent peer that answers every `/ask` with HTTP 200 and
`{"response": "done"}`. -/
def c7Ask : String → String → AskOutcome := fun _ _ => .ok 200 (some "done")

/-- A 4102-character reply with its only paragraph boundary at position 50:
the 4000-character cut falls inside the trailing run of `b`s. -/
def c8Reply : String :=
  String.mk (List.replicate 50 'a' ++ ('\n' :: '\n' :: List.replicate 4050 'b'))

/-- The first fixed slice of `c8Reply`. -/
def c8Chunk1 : String :=
  String.mk (List.replicate 50 'a' ++ ('\n' :: '\n' :: List.replicate 3948 'b'))

/-- The second fixed slice of `c8Reply`. -/
def c8Chunk2 : String := String.mk (List.replicate 102 'b')

/-- A 5000-character text that is one single paragraph. -/
def c8Mono : String := String.mk (List.replicate 5000 'a')

/-- The first paragraph of `c8Two`. -/
def c8TwoP1 : String := String.mk (List.replicate 2500 'a')

/-- The second paragraph of `c8Two`. -/
def c8TwoP2 : String := String.mk (List.replicate 2500 'b')

/-- A 5002-character text made of two 2500-character paragraphs. -/
def c8Two : String :=
  String.mk (List.replicate 2500 'a' ++ ('\n' :: '\n' :: List.replicate 2500 'b'))

/-- Tools constructed with a caller-supplied *empty* command allow-list. -/
def c9Tools : AgentTools := AgentTools.make ["home", "dev", "ws"] none (some [])

/-- A subprocess oracle that reports success for any command. -/
def c9Runner : String → ExecOutcome := fun _ => .completed 0 "ok" ""

/-- Tools whose extra allowed path `/ext` lies outside the workspace
`/home/ws`. -/
def c10Tools : AgentTools := AgentTools.make ["home", "ws"] (some [["ext"]]) none

/-- A file system with the workspace, the external allowed directory, an
empty subdirectory and a file inside it. -/
def c10Fs : Fs :=
  ⟨[(["home", "ws"], .dir), (["ext"], .dir), (["ext", "sub"], .dir),
    (["ext", "data.txt"], .file "hello")]⟩

/-! ## Lemmas about path resolution -/

theorem startsList_refl (l : List String) : startsList l l = true := by
  induction l with
  | nil => rfl
  | cons a as ih => simp [startsList, ih]

theorem dotFree_normStep (acc : List String) (part : String) (h : dotFree acc) :
    dotFree (normStep acc part) := by
  unfold normStep
  by_cases h2 : part = ".."
  · rw [if_pos h2]
    intro s hs
    exact h s ((List.dropLast_sublist acc).subset hs)
  · rw [if_neg h2]
    by_cases h3 : part = "."
    · rw [if_pos h3]
      exact h
    · rw [if_neg h3]
      intro s hs
      rcases List.mem_append.mp hs with h4 | h4
      · exact h s h4
      · rw [List.mem_singleton] at h4
        subst h4
        exact ⟨h2, h3⟩

theorem dotFree_foldl (l : List String) : ∀ acc, dotFree acc →
    dotFree (l.foldl normStep acc) := by
  induction l with
  | nil => intro acc h; exact h
  | cons x xs ih => intro acc h; exact ih _ (dotFree_normStep _ _ h)

theorem dotFree_normalizeParts (l : List String) : dotFree (normalizeParts l) :=
  dotFree_foldl l [] (by intro s hs; cases hs)

theorem foldl_normStep_of_dotFree (l : List String) (h : dotFree l) :
    ∀ acc, l.foldl normStep acc = acc ++ l := by
  induction l with
  | nil => intro acc; simp
  | cons x xs ih =>
    intro acc
    have hx := h x (List.mem_cons_self x xs)
    have hxs : dotFree xs := fun s hs => h s (List.mem_cons_of_mem _ hs)
    rw [List.foldl_cons]
    rw [show normStep acc x = acc ++ [x] by simp [normStep, hx.1, hx.2]]
    rw [ih hxs (acc ++ [x])]
    simp

theorem normalizeParts_of_dotFree (l : List String) (h : dotFree l) :
    normalizeParts l = l := by
  unfold normalizeParts
  rw [foldl_normStep_of_dotFree l h []]
  simp

theorem resolveInput_dotFree (t : AgentTools) (p : PyPath) : dotFree (resolveInput t p) := by
  unfold resolveInput
  split
  · exact dotFree_normalizeParts _
  · exact dotFree_normalizeParts _

/-! ## C1 — sandbox containment -/

/-- C1: for every `AgentTools` instance and every path that resolves outside
the workspace root and outside every configured extra allowed path, the
path validator, `read_file` and `write_file` all fail with the
path-violation `ValueError` (never silently clamped), and that error's
message names the workspace root and the allowed-path list. -/
theorem sandbox_containment (t : AgentTools) (p : PyPath) (fs : Fs) (content : String)
    (hw : startsList (normalizeParts t.workspace_path) (resolveInput t p) = false)
    (ha : ∀ a ∈ t.allowed_paths, startsList (normalizeParts a) (resolveInput t p) = false) :
    validatePath t p = .error (.valueError (violationMsg (renderPyPath p)
        (renderAbs t.workspace_path) (renderPathList t.allowed_paths))) ∧
    read_file t fs p = .error (.valueError (violationMsg (renderPyPath p)
        (renderAbs t.workspace_path) (renderPathList t.allowed_paths))) ∧
    write_file t fs p content = .error (.valueError (violationMsg (renderPyPath p)
        (renderAbs t.workspace_path) (renderPathList t.allowed_paths))) ∧
    (∃ s1 s2, violationMsg (renderPyPath p) (renderAbs t.workspace_path)
        (renderPathList t.allowed_paths) = s1 ++ renderAbs t.workspace_path ++ s2) ∧
    (∃ s3, violationMsg (renderPyPath p) (renderAbs t.workspace_path)
        (renderPathList t.allowed_paths) = s3 ++ renderPathList t.allowed_paths) := by
  have hfind : t.allowed_paths.find?
      (fun a => startsList (normalizeParts a) (resolveInput t p)) = none := by
    apply List.find?_eq_none.mpr
    intro a hmem
    simp [ha a hmem]
  have hany : (t.allowed_paths.any (fun a => a == resolveInput t p)) = false := by
    rw [List.any_eq_false]
    intro a hmem hbeq
    rw [beq_iff_eq] at hbeq
    have hres := ha a hmem
    subst hbeq
    rw [normalizeParts_of_dotFree _ (resolveInput_dotFree t p)] at hres
    rw [startsList_refl] at hres
    simp at hres
  have hval : validatePath t p = .error (.valueError (violationMsg (renderPyPath p)
      (renderAbs t.workspace_path) (renderPathList t.allowed_paths))) := by
    unfold validatePath
    simp only [hw, hfind, hany, Bool.false_eq_true, if_false]
  refine ⟨hval, ?_, ?_, ?_, ?_⟩
  · simp [read_file, hval, Except.bind]
  · simp [write_file, hval, Except.bind]
  · exact ⟨"Path " ++ (renderPyPath p ++
      " is outside workspace and not in allowed paths. Agent can access: "),
      " and " ++ renderPathList t.allowed_paths,
      by simp [violationMsg, String.append_assoc]⟩
  · exact ⟨"Path " ++ (renderPyPath p ++
      (" is outside workspace and not in allowed paths. Agent can access: " ++
        (renderAbs t.workspace_path ++ " and "))),
      by simp [violationMsg, String.append_assoc]⟩

/-- C1 witness: the concrete escape `../../secret.txt` from workspace
`/home/dev/ws` with allowed path `/opt/shared` is rejected everywhere. -/
theorem sandbox_containment_witness :
    validatePath c1Tools c1Path = .error (.valueError (violationMsg (renderPyPath c1Path)
        (renderAbs c1Tools.workspace_path) (renderPathList c1Tools.allowed_paths))) ∧
    read_file c1Tools emptyFs c1Path = .error (.valueError (violationMsg (renderPyPath c1Path)
        (renderAbs c1Tools.workspace_path) (renderPathList c1Tools.allowed_paths))) ∧
    write_file c1Tools emptyFs c1Path "stolen" = .error (.valueError (violationMsg
        (renderPyPath c1Path) (renderAbs c1Tools.workspace_path)
        (renderPathList c1Tools.allowed_paths))) ∧
    (∃ s1 s2, violationMsg (renderPyPath c1Path) (renderAbs c1Tools.workspace_path)
        (renderPathList c1Tools.allowed_paths) =
      s1 ++ renderAbs c1Tools.workspace_path ++ s2) ∧
    (∃ s3, violationMsg (renderPyPath c1Path) (renderAbs c1Tools.workspace_path)
        (renderPathList c1Tools.allowed_paths) = s3 ++ renderPathList c1Tools.allowed_paths) :=
  sandbox_containment c1Tools c1Path emptyFs "stolen" (by decide) (by decide)

/-! ## C2 — task lifecycle -/

/-- C2: a fresh agent has no current task; `assign_task T` makes `T` current
with status `in_progress` and `assigned_to` the agent's role;
`complete_task` returns `T` with status `done`, clears the current task and
leaves a one-element history containing it; a second `complete_task`
returns `none` instead of raising; and the `/complete` route turns that
`none` into an explicit 400 "No active task to complete" failure. -/
theorem task_lifecycle (settings : AgentSettings) (t : AgentTask) (now0 now1 now2 now3 : Int) :
    (initialAgentState now0).current_task = none ∧
    (assign_task settings (initialAgentState now0) t now1).current_task =
      some { t with assigned_to := some settings.role.value,
                    status := .in_progress, updated_at := now1 } ∧
    (complete_task (assign_task settings (initialAgentState now0) t now1) now2).1 =
      some { t with assigned_to := some settings.role.value,
                    status := .done, updated_at := now2 } ∧
    (complete_task (assign_task settings (initialAgentState now0) t now1) now2).2.current_task =
      none ∧
    (complete_task (assign_task settings (initialAgentState now0) t now1) now2).2.task_history =
      [{ t with assigned_to := some settings.role.value,
                status := .done, updated_at := now2 }] ∧
    complete_task (complete_task (assign_task settings (initialAgentState now0) t now1) now2).2
        now3 =
      (none, (complete_task (assign_task settings (initialAgentState now0) t now1) now2).2) ∧
    (completeRoute (complete_task (assign_task settings (initialAgentState now0) t now1) now2).2
        now3).1 = .error (400, "No active task to complete") :=
  ⟨rfl, rfl, rfl, rfl, rfl, rfl, rfl⟩

/-! ## C3 — agent health classification -/

/-- C3 (code bug): `get_status` computes health from
`(now - last_activity).seconds`, the day-wrapped seconds *component*, not
the total elapsed time, so an agent idle for one day and ten seconds
(86410 s ≥ 300 s, indeed ≥ a full day) still reports `"active"`, where the
specification requires `"idle"` for any idle time of 300 s or more. -/
theorem health_active_after_a_day_idle :
    (get_status c3Settings c3State 86410).health = "active" ∧
    ¬ (86410 - c3State.last_activity < 300) ∧
    86400 ≤ 86410 - c3State.last_activity := by
  refine ⟨?_, by decide, by decide⟩
  decide

/-! ## Lemmas about port allocation -/

theorem natContains_iff (l : List Nat) (a : Nat) : l.contains a = true ↔ a ∈ l := by
  simp [List.contains]

theorem portLookup_append_self (c : PortConfig) (role : String) (p : Nat)
    (h : portLookup c role = none) :
    portLookup { c with allocated_ports := c.allocated_ports ++ [(role, p)] } role = some p := by
  unfold portLookup at h ⊢
  rw [Option.map_eq_none'] at h
  simp only [List.find?_append, h]
  simp [List.find?]

theorem portLookup_append_other (c : PortConfig) (role other : String) (p : Nat)
    (hne : other ≠ role) (h : portLookup c other = none) :
    portLookup { c with allocated_ports := c.allocated_ports ++ [(role, p)] } other = none := by
  unfold portLookup at h ⊢
  rw [Option.map_eq_none'] at h
  simp only [List.find?_append, h]
  have hb : (role == other) = false := by
    rw [beq_eq_false_iff_ne]
    exact fun he => hne he.symm
  simp [List.find?, hb]

theorem scanFree_none (used : List Nat) : ∀ (n start : Nat),
    (∀ i, i < n → used.contains (start + i) = true) →
    scanFree used start n = none := by
  intro n
  induction n with
  | zero => intro start _; rfl
  | succ m ih =>
    intro start h
    have h0 : used.contains start = true := by
      have := h 0 (Nat.succ_pos m)
      simpa using this
    simp only [scanFree, h0, if_true]
    apply ih
    intro i hi
    have := h (i + 1) (by omega)
    rw [show start + (i + 1) = start + 1 + i by omega] at this
    exact this

theorem scanFree_hits (used : List Nat) : ∀ (n start p : Nat),
    start ≤ p → p < start + n →
    (∀ q, start ≤ q → q < p → used.contains q = true) →
    used.contains p = false →
    scanFree used start n = some p := by
  intro n
  induction n with
  | zero => intro start p h1 h2 _ _; omega
  | succ m ih =>
    intro start p h1 h2 hlow hfree
    by_cases hc : used.contains start = true
    · have hne : start ≠ p := by
        intro he
        rw [he, hfree] at hc
        cases hc
      simp only [scanFree, hc, if_true]
      apply ih (start + 1) p (by omega) (by omega) ?_ hfree
      intro q hq1 hq2
      exact hlow q (by omega) hq2
    · have hcf : used.contains start = false := by
        cases hcc : used.contains start with
        | false => rfl
        | true => exact absurd hcc hc
      have hsp : start = p := by
        by_contra hne
        have hlt : start < p := by omega
        exact hc (hlow start (Nat.le_refl _) hlt)
      simp only [scanFree, hcf]
      simp [hsp]

theorem allocate_port_idem (c : PortConfig) (role : String) (p : Nat) (c2 : PortConfig)
    (h : allocate_port c role = .ok (p, c2)) :
    allocate_port c2 role = .ok (p, c2) := by
  unfold allocate_port at h
  cases hl : portLookup c role with
  | some q =>
    rw [hl] at h
    simp only [Except.ok.injEq, Prod.mk.injEq] at h
    obtain ⟨hq, hc⟩ := h
    subst hq
    subst hc
    unfold allocate_port
    rw [hl]
  | none =>
    rw [hl] at h
    cases hs : scanFree (usedPorts c) c.start_port c.max_agents with
    | none =>
      rw [hs] at h
      cases h
    | some q =>
      rw [hs] at h
      simp only [Except.ok.injEq, Prod.mk.injEq] at h
      obtain ⟨hq, hc⟩ := h
      subst hq
      subst hc
      unfold allocate_port
      rw [portLookup_append_self c role q hl]

theorem allocateMany_fills (roles : List String) :
    ∀ (c : PortConfig) (k : Nat),
    roles.Nodup →
    (∀ r ∈ roles, portLookup c r = none) →
    usedPorts c = (List.range k).map (c.start_port + ·) →
    k + roles.length ≤ c.max_agents →
    ∃ c2, allocateMany c roles = .ok c2 ∧
      usedPorts c2 = (List.range (k + roles.length)).map (c.start_port + ·) ∧
      c2.start_port = c.start_port ∧ c2.max_agents = c.max_agents ∧
      (∀ r, portLookup c r = none → r ∉ roles → portLookup c2 r = none) := by
  induction roles with
  | nil =>
    intro c k _ _ hused _
    exact ⟨c, rfl, by simpa using hused, rfl, rfl, fun r h _ => h⟩
  | cons r rs ih =>
    intro c k hnd hfresh hused hle
    have hlr : portLookup c r = none := hfresh r (List.mem_cons_self r rs)
    have hscan : scanFree (usedPorts c) c.start_port c.max_agents =
        some (c.start_port + k) := by
      apply scanFree_hits
      · exact Nat.le_add_right _ _
      · simp only [List.length_cons] at hle
        omega
      · intro q hq1 hq2
        rw [hused, natContains_iff]
        simp only [List.mem_map, List.mem_range]
        exact ⟨q - c.start_port, by omega, by omega⟩
      · rw [hused]
        cases hcc : ((List.range k).map (c.start_port + ·)).contains (c.start_port + k) with
        | false => rfl
        | true =>
          rw [natContains_iff] at hcc
          simp only [List.mem_map, List.mem_range] at hcc
          obtain ⟨i, hi, he⟩ := hcc
          omega
    have hstep : allocate_port c r = .ok (c.start_port + k,
        { c with allocated_ports := c.allocated_ports ++ [(r, c.start_port + k)] }) := by
      unfold allocate_port
      rw [hlr, hscan]
    have husedc1 : usedPorts { c with allocated_ports :=
        c.allocated_ports ++ [(r, c.start_port + k)] } =
        (List.range (k + 1)).map (c.start_port + ·) := by
      simp only [usedPorts, List.map_append, List.range_succ]
      rw [show (c.allocated_ports.map (·.2)) = usedPorts c from rfl, hused]
      simp
    have hndtail : rs.Nodup := (List.nodup_cons.mp hnd).2
    have hrnotin : r ∉ rs := (List.nodup_cons.mp hnd).1
    have hfreshc1 : ∀ r2 ∈ rs, portLookup { c with allocated_ports :=
        c.allocated_ports ++ [(r, c.start_port + k)] } r2 = none := by
      intro r2 hr2
      apply portLookup_append_other
      · intro he
        rw [he] at hr2
        exact hrnotin hr2
      · exact hfresh r2 (List.mem_cons_of_mem _ hr2)
    obtain ⟨c2, hmany, hused2, hsp, hma, hpres⟩ :=
      ih { c with allocated_ports := c.allocated_ports ++ [(r, c.start_port + k)] } (k + 1)
        hndtail hfreshc1 husedc1 (by simp only [List.length_cons] at hle; simpa using by omega)
    dsimp only at hused2 hsp hma hpres
    refine ⟨c2, ?_, ?_, hsp, hma, ?_⟩
    · unfold allocateMany
      rw [hstep]
      exact hmany
    · rw [hused2]
      simp only [List.length_cons]
      rw [show k + 1 + rs.length = k + (rs.length + 1) by omega]
    · intro r3 hr3 hnin
      have hr3ne : r3 ≠ r := by
        intro he
        exact hnin (he ▸ List.mem_cons_self r rs)
      apply hpres
      · exact portLookup_append_other c r r3 _ hr3ne hr3
      · intro hmem
        exact hnin (List.mem_cons_of_mem _ hmem)

/-! ## C4 — port allocation -/

/-- C4 (amended): allocating the same role twice returns the same port;
allocating `N` distinct roles into a fresh pool of exactly `N` slots
succeeds with the slots `start..start+N-1` each used exactly once, and any
further distinct role is then refused with `"No available ports"`; and
`release_port` followed by a new allocation returns the freed port
*provided* every lower port of the range is still allocated (the scan is
first-available from the start port, so in general it returns the lowest
free port, not necessarily the freed one). -/
theorem port_allocation_amended :
    (∀ (c : PortConfig) (role : String) (p : Nat) (c2 : PortConfig),
      allocate_port c role = .ok (p, c2) → allocate_port c2 role = .ok (p, c2)) ∧
    (∀ (roles : List String) (start : Nat), roles.Nodup →
      ∃ c2, allocateMany ⟨start, roles.length, []⟩ roles = .ok c2 ∧
        usedPorts c2 = (List.range roles.length).map (start + ·) ∧
        (∀ extra, extra ∉ roles → allocate_port c2 extra = .error "No available ports")) ∧
    (∀ (c : PortConfig) (role newRole : String) (p : Nat),
      portLookup c role = some p →
      portLookup (release_port c role) newRole = none →
      (∀ q, c.start_port ≤ q → q < p → (usedPorts (release_port c role)).contains q = true) →
      (usedPorts (release_port c role)).contains p = false →
      c.start_port ≤ p → p < c.start_port + c.max_agents →
      ∃ c2, allocate_port (release_port c role) newRole = .ok (p, c2)) := by
  refine ⟨allocate_port_idem, ?_, ?_⟩
  · intro roles start hnd
    obtain ⟨c2, hmany, hused2, hsp, hma, hpres⟩ :=
      allocateMany_fills roles ⟨start, roles.length, []⟩ 0 hnd
        (fun r _ => rfl) (by simp [usedPorts]) (by simp)
    have hsp2 : c2.start_port = start := hsp
    have hma2 : c2.max_agents = roles.length := hma
    have hused3 : usedPorts c2 = (List.range roles.length).map (start + ·) := by
      rw [hused2]
      simp
    refine ⟨c2, hmany, hused3, ?_⟩
    intro extra hnin
    have hfresh : portLookup c2 extra = none := hpres extra rfl hnin
    have hscan : scanFree (usedPorts c2) c2.start_port c2.max_agents = none := by
      apply scanFree_none
      intro i hi
      rw [hused3, hsp2, natContains_iff]
      simp only [List.mem_map, List.mem_range]
      rw [hma2] at hi
      exact ⟨i, by omega, rfl⟩
    unfold allocate_port
    rw [hfresh, hscan]
  · intro c role newRole p hp hfresh hlow hfree hge hlt
    have hscan : scanFree (usedPorts (release_port c role)) (release_port c role).start_port
        (release_port c role).max_agents = some p := by
      apply scanFree_hits _ _ _ p
      · exact hge
      · exact hlt
      · exact hlow
      · exact hfree
    refine ⟨{ release_port c role with allocated_ports :=
      (release_port c role).allocated_ports ++ [(newRole, p)] }, ?_⟩
    unfold allocate_port
    rw [hfresh, hscan]

/-- C4 counterexample: after allocating `backend` (8300) and `frontend`
(8301) and releasing `backend`, releasing `frontend` frees port 8301, yet
the next allocation returns 8300 — `release_port` followed by a new
allocation does *not* in general return the freed port. -/
theorem port_allocation_counterexample :
    allocate_port {} "backend" = .ok (8300, c4c1) ∧
    allocate_port c4c1 "frontend" = .ok (8301, c4c2) ∧
    release_port c4c2 "backend" = c4c3 ∧
    portLookup c4c3 "frontend" = some 8301 ∧
    release_port c4c3 "frontend" = c4c4 ∧
    allocate_port c4c4 "qa" = .ok (8300, c4c5) ∧
    (8300 : Nat) ≠ 8301 :=
  ⟨rfl, rfl, rfl, rfl, rfl, rfl, by decide⟩

/-- C4 witness: idempotent re-allocation at `backend`; a two-slot pool
filled by two roles with both slots used and a third role refused; and a
release whose freed port 8301 is returned because the lower port 8300 is
still taken. -/
theorem port_allocation_amended_witness :
    allocate_port c4c1 "backend" = .ok (8300, c4c1) ∧
    (∃ c2, allocateMany ⟨8300, 2, []⟩ ["backend", "frontend"] = .ok c2 ∧
      usedPorts c2 = (List.range 2).map (8300 + ·) ∧
      (∀ extra, extra ∉ ["backend", "frontend"] →
        allocate_port c2 extra = .error "No available ports")) ∧
    (∃ c2, allocate_port (release_port c4Full "b") "b" = .ok (8301, c2)) := by
  refine ⟨?_, ?_, ?_⟩
  · exact port_allocation_amended.1 {} "backend" 8300 c4c1 rfl
  · exact port_allocation_amended.2.1 ["backend", "frontend"] 8300 (by decide)
  · exact port_allocation_amended.2.2 c4Full "b" "b" 8301 (by decide) (by decide)
      (by
        intro q h1 h2
        have hq : q = 8300 := by
          have : c4Full.start_port = 8300 := rfl
          omega
        subst hq
        decide)
      (by decide) (by decide) (by decide)

/-! ## C5 — agent-id derivation and collision resolution -/

/-- C5: an agent id is derived deterministically as `role-name` with the
name lower-cased and spaces replaced by hyphens (no collision ⇒ that id
verbatim), and the concrete collision scenario: adding
(`backend`, `Alex`) twice yields `backend-alex` then `backend-alex-1`,
and adding (`frontend`, `Alex`) afterwards yields `frontend-alex`. -/
theorem agent_id_derivation :
    (∀ (p : ProjectState) (role name workspace : String) (now : Int),
      keyMem p.active_agents (role ++ "-" ++ spacesToDashes (pyLower name)) = false →
      (add_agent p role name workspace now).1 =
        role ++ "-" ++ spacesToDashes (pyLower name)) ∧
    (add_agent {} "backend" "Alex" "w1" 0).1 = "backend-alex" ∧
    (add_agent (add_agent {} "backend" "Alex" "w1" 0).2 "backend" "Alex" "w2" 1).1 =
      "backend-alex-1" ∧
    (add_agent (add_agent (add_agent {} "backend" "Alex" "w1" 0).2 "backend" "Alex" "w2" 1).2
      "frontend" "Alex" "w3" 2).1 = "frontend-alex" := by
  refine ⟨?_, by decide, by decide, by decide⟩
  intro p role name workspace now h
  simp only [add_agent, AgentInfo.agent_id, h]
  rfl

/-- C5 witness: the no-collision branch of the theorem at a concrete
fresh project. -/
theorem agent_id_derivation_witness :
    (add_agent {} "backend" "Alex" "w" 5).1 =
      "backend" ++ "-" ++ spacesToDashes (pyLower "Alex") :=
  agent_id_derivation.1 {} "backend" "Alex" "w" 5 (by decide)

/-! ## Lemmas about the history store -/

theorem histGet_put (d : HistDir) (nm : String) (f : HistFile) :
    histGet (histPut d nm f) nm = some f := by
  unfold histGet histPut
  rw [List.find?_append]
  have hnone : (d.files.filter (fun e => e.1 ≠ nm)).find? (fun e => e.1 == nm) = none := by
    rw [List.find?_eq_none]
    intro e he
    have h2 := (List.mem_filter.mp he).2
    simp only [decide_not, Bool.not_eq_true', decide_eq_false_iff_not] at h2
    simp [h2]
  rw [hnone]
  simp [List.find?]

theorem load_after_put (d : HistDir) (r : String) (l : List HistEntry) :
    load_agent_history (histPut d (historyFileName r) (.valid l)) r = l := by
  unfold load_agent_history
  rw [histGet_put]

theorem getLast?_lastN (xs : List α) (e : α) (n : Nat) (hn : 1 ≤ n) :
    (lastN n (xs ++ [e])).getLast? = some e := by
  unfold lastN
  rw [List.drop_append_eq_append_drop]
  have h1 : (xs ++ [e]).length - n - xs.length = 0 := by
    simp only [List.length_append, List.length_singleton]
    omega
  rw [h1]
  simp [List.getLast?_append]

/-! ## C6 — conversation history bound and robustness -/

/-- C6: after every `add_message`, the stored history equals the 50 most
recent entries of the old history plus the new record (hence at most 50
entries, newest last); and `load_agent_history` returns `[]` without
raising when the role's file is absent or unparseable. -/
theorem conversation_history_bound (d : HistDir) (role um ar : String)
    (ctx : Option (List (String × String))) (now : Int) :
    load_agent_history (add_message d role um ar ctx now) role =
      lastN 50 (load_agent_history d role ++
        [{ timestamp := now, user_message := um, agent_response := ar,
           context := ctx.getD [] }]) ∧
    (load_agent_history (add_message d role um ar ctx now) role).length ≤ 50 ∧
    (load_agent_history (add_message d role um ar ctx now) role).getLast? =
      some { timestamp := now, user_message := um, agent_response := ar,
             context := ctx.getD [] } ∧
    (∀ (d0 : HistDir) (r0 : String), histGet d0 (historyFileName r0) = none →
      load_agent_history d0 r0 = []) ∧
    (∀ (d0 : HistDir) (r0 : String), histGet d0 (historyFileName r0) = some .corrupt →
      load_agent_history d0 r0 = []) := by
  have hstored : load_agent_history (add_message d role um ar ctx now) role =
      lastN 50 (load_agent_history d role ++
        [{ timestamp := now, user_message := um, agent_response := ar,
           context := ctx.getD [] }]) := by
    unfold add_message
    rw [load_after_put]
    by_cases hlen : (load_agent_history d role ++
        [({ timestamp := now, user_message := um, agent_response := ar,
            context := ctx.getD [] } : HistEntry)]).length > 50
    · rw [if_pos hlen]
    · rw [if_neg hlen]
      unfold lastN
      rw [Nat.sub_eq_zero_of_le (by omega), List.drop_zero]
  refine ⟨hstored, ?_, ?_, ?_, ?_⟩
  · rw [hstored]
    unfold lastN
    rw [List.length_drop]
    omega
  · rw [hstored]
    exact getLast?_lastN _ _ 50 (by omega)
  · intro d0 r0 h
    simp [load_agent_history, h]
  · intro d0 r0 h
    simp [load_agent_history, h]

/-- C6 witness: the robustness conjuncts of the theorem at a concrete
empty directory and a concrete corrupt file, and the bound after one
concrete `add_message`. -/
theorem conversation_history_bound_witness :
    load_agent_history (⟨[]⟩ : HistDir) "backend" = [] ∧
    load_agent_history c6Corrupt "backend" = [] ∧
    (load_agent_history (add_message c6Corrupt "backend" "hi" "yo" none 7) "backend").length
      ≤ 50 :=
  ⟨(conversation_history_bound ⟨[]⟩ "backend" "m" "r" none 0).2.2.2.1 ⟨[]⟩ "backend" (by decide),
   (conversation_history_bound ⟨[]⟩ "backend" "m" "r" none 0).2.2.2.2 c6Corrupt "backend"
     (by decide),
   (conversation_history_bound c6Corrupt "backend" "hi" "yo" none 7).2.1⟩

/-! ## C7 — chat message routing -/

/-- C7 (code bug): for a registered backend agent, `"@backend implement X"`
produces exactly one `/ask` call to the agent's url with the mention
stripped, and the relayed reply contains the agent's response text; an
unregistered role produces zero `/ask` calls and a "No agent found" reply;
a message with no leading mention produces nothing.  But the reply is
formatted `"**BACKEND** responds:"`, so it does **not** contain the literal
substring `"BACKEND responds"` that the claim (and the repository's own
tests, tests/unit/test_telegram_bridge.py:197 and
tests/integration/test_end_to_end.py:161) require. -/
theorem backend_responds_literal_missing :
    handle_message c7Registry c7Ask "@backend implement X" =
      { asks := [("http://localhost:8301/ask", "implement X")],
        replies := ["**BACKEND** responds:\n\ndone"] } ∧
    containsStr "**BACKEND** responds:\n\ndone" "BACKEND responds" = false ∧
    containsStr "**BACKEND** responds:\n\ndone" "done" = true ∧
    handle_message c7Registry c7Ask "@unknown do X" =
      { asks := [], replies := ["❌ No agent found for role: unknown"] } ∧
    containsStr "❌ No agent found for role: unknown" "No agent found for role: unknown" = true ∧
    handle_message c7Registry c7Ask "hello backend" = { asks := [], replies := [] } := by
  refine ⟨by decide, by decide, by decide, by decide, by decide, by decide⟩

/-! ## Lemmas about reply splitting -/

theorem chunksAux_ne_nil (fuel : Nat) (l : List Char) : chunksAux fuel l ≠ [] := by
  cases fuel with
  | zero => simp [chunksAux]
  | succ m =>
    simp only [chunksAux]
    split <;> simp

theorem chunksAux_flatten (fuel : Nat) : ∀ l, (chunksAux fuel l).flatten = l := by
  induction fuel with
  | zero => intro l; simp [chunksAux]
  | succ m ih =>
    intro l
    simp only [chunksAux]
    split
    · simp
    · rw [List.flatten_cons, ih]
      exact List.take_append_drop 4000 l

theorem chunksAux_chunk_le (fuel : Nat) : ∀ l, l.length ≤ fuel →
    ∀ m ∈ chunksAux fuel l, m.length ≤ 4000 := by
  induction fuel with
  | zero =>
    intro l hl m hm
    have hnil : l = [] := List.eq_nil_of_length_eq_zero (by omega)
    subst hnil
    simp only [chunksAux, List.mem_singleton] at hm
    subst hm
    simp
  | succ k ih =>
    intro l hl m hm
    simp only [chunksAux] at hm
    by_cases hle : l.length ≤ 4000
    · rw [if_pos hle] at hm
      rw [List.mem_singleton] at hm
      subst hm
      exact hle
    · rw [if_neg hle] at hm
      rcases List.mem_cons.mp hm with h | h
      · subst h
        simp only [List.length_take]
        omega
      · apply ih (l.drop 4000) ?_ m h
        rw [List.length_drop]
        omega

theorem chunksAux_two_le (fuel : Nat) (l : List Char) (h : 4000 < l.length)
    (hf : l.length ≤ fuel) : 2 ≤ (chunksAux fuel l).length := by
  cases fuel with
  | zero => omega
  | succ m =>
    simp only [chunksAux]
    rw [if_neg (by omega)]
    simp only [List.length_cons]
    have hne := chunksAux_ne_nil m (l.drop 4000)
    have hpos : 0 < (chunksAux m (l.drop 4000)).length := List.length_pos.mpr hne
    omega

theorem chunks_eq_of_two (l : List Char) (h1 : 4000 < l.length) (h2 : l.length ≤ 8000) :
    ∀ fuel, l.length ≤ fuel → chunksAux fuel l = [l.take 4000, l.drop 4000] := by
  intro fuel hf
  cases fuel with
  | zero => omega
  | succ m =>
    simp only [chunksAux]
    rw [if_neg (by omega)]
    congr 1
    cases m with
    | zero => rfl
    | succ m2 =>
      simp only [chunksAux]
      rw [if_pos (by rw [List.length_drop]; omega)]

theorem joinStrings_map_mk (ls : List (List Char)) :
    joinStrings (ls.map String.mk) = String.mk ls.flatten := by
  induction ls with
  | nil => rfl
  | cons a rest ih =>
    simp only [List.map_cons, joinStrings, List.foldr_cons] at ih ⊢
    rw [ih]
    rfl

theorem splitLongReply_facts (reply : String) (h : 4000 < reply.data.length) :
    2 ≤ (splitLongReply reply).length ∧
    (∀ m ∈ splitLongReply reply, m.data.length ≤ 4000) ∧
    joinStrings (splitLongReply reply) = reply := by
  unfold splitLongReply chunks4000
  rw [if_pos h]
  refine ⟨?_, ?_, ?_⟩
  · rw [List.length_map]
    exact chunksAux_two_le _ _ h (Nat.le_refl _)
  · intro m hm
    rw [List.mem_map] at hm
    obtain ⟨x, hx, he⟩ := hm
    subst he
    exact chunksAux_chunk_le _ _ (Nat.le_refl _) x hx
  · rw [joinStrings_map_mk, chunksAux_flatten]

theorem splitParas_no_newline : ∀ (l cur : List Char), (∀ c ∈ l, c ≠ '\n') →
    splitParas l cur = [String.mk (cur.reverse ++ l)] := by
  intro l cur
  induction l, cur using splitParas.induct with
  | case1 cur =>
    intro _
    simp [splitParas]
  | case2 c cur =>
    intro _
    simp [splitParas]
  | case3 c d cs cur hcond ih =>
    intro h
    exact absurd hcond.1 (h c (List.mem_cons_self _ _))
  | case4 c d cs cur hcond ih =>
    intro h
    simp only [splitParas]
    rw [if_neg hcond]
    rw [ih (fun x hx => h x (List.mem_cons_of_mem _ hx))]
    simp

theorem splitParas_single_break : ∀ (xs : List Char), (∀ c ∈ xs, c ≠ '\n') →
    ∀ (cur ys : List Char),
    splitParas (xs ++ '\n' :: '\n' :: ys) cur =
      String.mk (cur.reverse ++ xs) :: splitParas ys [] := by
  intro xs
  induction xs with
  | nil =>
    intro _ cur ys
    simp only [List.nil_append, splitParas]
    rw [if_pos (by simp)]
    simp
  | cons x xs ih =>
    intro h cur ys
    have hx : x ≠ '\n' := h x (List.mem_cons_self _ _)
    have htail : ∀ c ∈ xs, c ≠ '\n' := fun c hc => h c (List.mem_cons_of_mem _ hc)
    cases xs with
    | nil =>
      simp only [List.cons_append, List.nil_append, splitParas]
      rw [if_neg (fun hc => hx hc.1), if_pos (by simp)]
      simp
    | cons y ys2 =>
      simp only [List.cons_append, splitParas]
      rw [if_neg (fun hc => hx hc.1)]
      have hrec := ih htail (x :: cur) ys
      simp only [List.cons_append] at hrec
      simp only [List.append_eq]
      rw [hrec]
      simp

theorem buildPartsAux_le (paras : List String) :
    ∀ (parts : List String) (current : String),
    (∀ par ∈ paras, par.data.length + 2 ≤ 4000) →
    (∀ m ∈ parts, m.data.length ≤ 4000) →
    current.data.length ≤ 4000 →
    ∀ part ∈ buildPartsAux 4000 paras parts current, part.data.length ≤ 4000 := by
  induction paras with
  | nil =>
    intro parts current _ hp hc part hmem
    simp only [buildPartsAux] at hmem
    split at hmem
    · rcases List.mem_append.mp hmem with h | h
      · exact hp part h
      · rw [List.mem_singleton] at h
        subst h
        exact hc
    · exact hp part hmem
  | cons q qs ih =>
    intro parts current hps hp hc part hmem
    have hq : q.data.length + 2 ≤ 4000 := hps q (List.mem_cons_self _ _)
    have hqs : ∀ par ∈ qs, par.data.length + 2 ≤ 4000 :=
      fun par hpar => hps par (List.mem_cons_of_mem _ hpar)
    simp only [buildPartsAux] at hmem
    by_cases hcond : current.data.length + q.data.length + 2 ≤ 4000
    · rw [if_pos hcond] at hmem
      apply ih _ _ hqs hp ?_ part hmem
      by_cases hcur : current = ""
      · rw [if_neg (by simp [hcur])]
        omega
      · rw [if_pos hcur]
        simp only [String.data_append, List.length_append]
        rw [show ("\n\n" : String).data.length = 2 from rfl]
        omega
    · rw [if_neg hcond] at hmem
      apply ih _ _ hqs ?_ (by omega) part hmem
      by_cases hcur : current = ""
      · rw [if_neg (by simp [hcur])]
        exact hp
      · rw [if_pos hcur]
        intro m hm
        rcases List.mem_append.mp hm with h | h
        · exact hp m h
        · rw [List.mem_singleton] at h
          subst h
          exact hc

theorem buildParts_le (text : String)
    (h : ∀ par ∈ splitParas text.data [], par.data.length + 2 ≤ 4000) :
    ∀ part ∈ buildParts text, part.data.length ≤ 4000 := by
  unfold buildParts
  apply buildPartsAux_le _ _ _ h
  · intro m hm
    cases hm
  · show (0 : Nat) ≤ 4000
    omega

theorem withSuffixes_mem (n : Nat) (hn : 1 < n) : ∀ (i : Nat) (l : List String) (m : String),
    m ∈ withSuffixes n i l → ∃ p j, p ∈ l ∧ m = p ++ partSuffix j n := by
  intro i l
  induction l generalizing i with
  | nil =>
    intro m hm
    cases hm
  | cons p ps ih =>
    intro m hm
    simp only [withSuffixes] at hm
    rcases List.mem_cons.mp hm with h | h
    · refine ⟨p, i, List.mem_cons_self _ _, ?_⟩
      rw [h, if_pos hn]
    · obtain ⟨p2, j, hp2, he⟩ := ih (i + 1) m h
      exact ⟨p2, j, List.mem_cons_of_mem _ hp2, he⟩

theorem drop_len_sub_one (init : List α) (c : α) :
    (init ++ [c]).drop ((init ++ [c]).length - 1) = [c] := by
  rw [List.length_append, List.length_singleton, List.drop_append_eq_append_drop]
  rw [List.drop_eq_nil_of_le (by omega)]
  rw [show init.length + 1 - 1 - init.length = 0 by omega]
  rfl

theorem strEndsWith_append_bracket (y : String) : strEndsWith (y ++ "]") "]" = true := by
  unfold strEndsWith
  rw [String.data_append]
  rw [show ("]" : String).data = [']'] from rfl]
  rw [show (y.data ++ [']']).length - ([']'] : List Char).length =
    (y.data ++ [']']).length - 1 from rfl]
  rw [drop_len_sub_one]
  simp

theorem strEndsWith_partSuffix (x : String) (j n : Nat) :
    strEndsWith (x ++ partSuffix j n) "]" = true := by
  rw [show x ++ partSuffix j n =
    (x ++ ("\n\n[" ++ toString (j + 1) ++ "/" ++ toString n)) ++ "]" from by
      unfold partSuffix
      simp [String.append_assoc]]
  exact strEndsWith_append_bracket _

theorem send_message_texts_suffixed (text : String) (h4 : 4000 < text.data.length)
    (hgt : 1 < (buildParts text).length) :
    ∀ m ∈ send_message_texts text, ∃ p i, p ∈ buildParts text ∧
      m = p ++ partSuffix i (buildParts text).length ∧ strEndsWith m "]" = true := by
  intro m hm
  unfold send_message_texts at hm
  rw [if_neg (by omega)] at hm
  obtain ⟨p, j, hp, he⟩ := withSuffixes_mem _ hgt 0 _ m hm
  refine ⟨p, j, hp, he, ?_⟩
  rw [he]
  exact strEndsWith_partSuffix _ _ _

theorem buildPartsAux_nil_eq (parts : List String) (current : String) :
    buildPartsAux 4000 [] parts current =
      if current ≠ "" then parts ++ [current] else parts := rfl

theorem buildPartsAux_cons_eq (q : String) (qs parts : List String) (current : String) :
    buildPartsAux 4000 (q :: qs) parts current =
      if current.data.length + q.data.length + 2 ≤ 4000 then
        buildPartsAux 4000 qs parts
          (if current ≠ "" then current ++ "\n\n" ++ q else q)
      else
        buildPartsAux 4000 qs (if current ≠ "" then parts ++ [current] else parts) q := rfl

theorem splitParas_c8Mono : splitParas c8Mono.data [] = [c8Mono] := by
  rw [show c8Mono.data = List.replicate 5000 'a' from rfl]
  rw [splitParas_no_newline _ _ ?_]
  · simp only [List.reverse_nil, List.nil_append]
    rfl
  · intro c hc
    rw [List.mem_replicate] at hc
    rw [hc.2]
    decide

theorem c8Mono_len : c8Mono.data.length = 5000 := by
  rw [show c8Mono.data = List.replicate 5000 'a' from rfl, List.length_replicate]

theorem buildParts_c8Mono : buildParts c8Mono = [c8Mono] := by
  have hne : c8Mono ≠ "" := by
    intro he
    have h0 : c8Mono.data.length = 0 := by
      rw [he]
      rfl
    rw [c8Mono_len] at h0
    omega
  have hcond : ¬ (("" : String).data.length + c8Mono.data.length + 2 ≤ 4000) := by
    rw [show ("" : String).data.length = 0 from rfl, c8Mono_len]
    omega
  unfold buildParts
  rw [splitParas_c8Mono]
  rw [buildPartsAux_cons_eq]
  rw [if_neg hcond, if_neg (show ¬(("" : String) ≠ "") by simp)]
  rw [buildPartsAux_nil_eq, if_pos hne]
  simp

theorem send_c8Mono : send_message_texts c8Mono = [c8Mono] := by
  unfold send_message_texts
  rw [if_neg (show ¬ (c8Mono.data.length ≤ 4000) by
    rw [c8Mono_len]
    omega)]
  simp only [buildParts_c8Mono]
  simp only [withSuffixes, List.length_singleton]
  rw [if_neg (by omega)]
  simp

theorem splitParas_c8Two : splitParas c8Two.data [] = [c8TwoP1, c8TwoP2] := by
  rw [show c8Two.data =
    List.replicate 2500 'a' ++ '\n' :: '\n' :: List.replicate 2500 'b' from rfl]
  rw [splitParas_single_break _ ?_ [] _]
  · rw [splitParas_no_newline _ _ ?_]
    · simp only [List.reverse_nil, List.nil_append]
      rfl
    · intro c hc
      rw [List.mem_replicate] at hc
      rw [hc.2]
      decide
  · intro c hc
    rw [List.mem_replicate] at hc
    rw [hc.2]
    decide

theorem c8Two_parts : buildParts c8Two = [c8TwoP1, c8TwoP2] := by
  have l1 : c8TwoP1.data.length = 2500 := by
    rw [show c8TwoP1.data = List.replicate 2500 'a' from rfl, List.length_replicate]
  have l2 : c8TwoP2.data.length = 2500 := by
    rw [show c8TwoP2.data = List.replicate 2500 'b' from rfl, List.length_replicate]
  have hne1 : c8TwoP1 ≠ "" := by
    intro he
    have h0 : c8TwoP1.data.length = 0 := by
      rw [he]
      rfl
    rw [l1] at h0
    omega
  have hne2 : c8TwoP2 ≠ "" := by
    intro he
    have h0 : c8TwoP2.data.length = 0 := by
      rw [he]
      rfl
    rw [l2] at h0
    omega
  unfold buildParts
  rw [splitParas_c8Two]
  rw [buildPartsAux_cons_eq]
  rw [if_pos (show ("" : String).data.length + c8TwoP1.data.length + 2 ≤ 4000 by
    rw [show ("" : String).data.length = 0 from rfl, l1]
    omega)]
  rw [if_neg (show ¬(("" : String) ≠ "") by simp)]
  rw [buildPartsAux_cons_eq]
  rw [if_neg (show ¬ (c8TwoP1.data.length + c8TwoP2.data.length + 2 ≤ 4000) by
    rw [l1, l2]
    omega)]
  rw [if_pos hne1]
  rw [buildPartsAux_nil_eq, if_pos hne2]
  simp

/-! ## C8 — long-reply splitting -/

/-- C8 (amended): for every relayed reply longer than 4000 characters the
core bridge sends at least two messages, obtained by *fixed* 4000-character
slicing — each slice at most 4000 characters (hence under the 4096
platform ceiling) and their concatenation the original reply — with no
paragraph alignment and no `[i/n]` suffix; the standalone bridge's
`send_message` is the variant that splits on paragraph boundaries (each
part within 4000 characters provided every paragraph fits in 3998) and
appends an `[i/n]` suffix to every part when more than one part is
produced. -/
theorem long_reply_splitting_amended :
    (∀ reply : String, 4000 < reply.data.length →
      2 ≤ (splitLongReply reply).length ∧
      (∀ m ∈ splitLongReply reply, m.data.length ≤ 4000) ∧
      joinStrings (splitLongReply reply) = reply) ∧
    (∀ text : String,
      (∀ par ∈ splitParas text.data [], par.data.length + 2 ≤ 4000) →
      ∀ part ∈ buildParts text, part.data.length ≤ 4000) ∧
    (∀ text : String, 4000 < text.data.length → 1 < (buildParts text).length →
      ∀ m ∈ send_message_texts text, ∃ p i, p ∈ buildParts text ∧
        m = p ++ partSuffix i (buildParts text).length ∧ strEndsWith m "]" = true) :=
  ⟨splitLongReply_facts, buildParts_le, send_message_texts_suffixed⟩

/-- C8 witness: the three parts of the theorem at the concrete inputs
`c8Reply` (a 4102-character reply), a short two-paragraph text, and
`c8Two` (two 2500-character paragraphs). -/
theorem long_reply_splitting_amended_witness :
    (2 ≤ (splitLongReply c8Reply).length ∧
      (∀ m ∈ splitLongReply c8Reply, m.data.length ≤ 4000) ∧
      joinStrings (splitLongReply c8Reply) = c8Reply) ∧
    (∀ part ∈ buildParts "hello\n\nworld", part.data.length ≤ 4000) ∧
    (∀ m ∈ send_message_texts c8Two, ∃ p i, p ∈ buildParts c8Two ∧
      m = p ++ partSuffix i (buildParts c8Two).length ∧ strEndsWith m "]" = true) :=
  ⟨long_reply_splitting_amended.1 c8Reply (by
      rw [show c8Reply.data =
        List.replicate 50 'a' ++ ('\n' :: '\n' :: List.replicate 4050 'b') from rfl]
      rw [List.length_append, List.length_replicate, List.length_cons, List.length_cons,
          List.length_replicate]
      omega),
   long_reply_splitting_amended.2.1 "hello\n\nworld" (by decide),
   long_reply_splitting_amended.2.2 c8Two (by
      rw [show c8Two.data =
        List.replicate 2500 'a' ++ ('\n' :: '\n' :: List.replicate 2500 'b') from rfl]
      rw [List.length_append, List.length_replicate, List.length_cons, List.length_cons,
          List.length_replicate]
      omega)
     (by rw [c8Two_parts]; norm_num)⟩

/-- C8 counterexample: the 4102-character reply `c8Reply` has its only
paragraph boundary at position 50, yet `_handle_message` cuts it at
position 4000, inside the trailing run of `b`s (last character of the
first outbound message and first character of the second are both `b`),
and neither outbound message carries an `[i/n]` suffix; and in the
standalone bridge, the single-paragraph 5000-character text `c8Mono` is
sent as *one* message of 5000 characters, above the 4096 platform
ceiling — so the split is not made on paragraph boundaries with per-chunk
suffixes as claimed. -/
theorem long_reply_splitting_counterexample :
    c8Reply.data = List.replicate 50 'a' ++ ('\n' :: '\n' :: List.replicate 4050 'b') ∧
    4000 < c8Reply.data.length ∧
    splitLongReply c8Reply = [c8Chunk1, c8Chunk2] ∧
    c8Chunk1.data.getLast? = some 'b' ∧
    c8Chunk2.data.head? = some 'b' ∧
    strEndsWith c8Chunk1 "]" = false ∧
    strEndsWith c8Chunk2 "]" = false ∧
    send_message_texts c8Mono = [c8Mono] ∧
    4096 < c8Mono.data.length := by
  have hdata : c8Reply.data =
      List.replicate 50 'a' ++ ('\n' :: '\n' :: List.replicate 4050 'b') := rfl
  have hlen : c8Reply.data.length = 4102 := by
    rw [hdata, List.length_append, List.length_replicate, List.length_cons, List.length_cons,
        List.length_replicate]
  have htake : c8Reply.data.take 4000 = c8Chunk1.data := by
    rw [hdata, List.take_append_eq_append_take,
        List.take_of_length_le (by rw [List.length_replicate]; omega), List.length_replicate]
    rw [show (4000 : Nat) - 50 = 3949 + 1 from rfl, List.take_succ_cons,
        show (3949 : Nat) = 3948 + 1 from rfl, List.take_succ_cons, List.take_replicate]
    rw [show min 3948 4050 = 3948 from rfl]
    rfl
  have hdrop : c8Reply.data.drop 4000 = c8Chunk2.data := by
    rw [hdata, List.drop_append_eq_append_drop,
        List.drop_eq_nil_of_le (by rw [List.length_replicate]; omega), List.length_replicate]
    rw [show (4000 : Nat) - 50 = 3949 + 1 from rfl, List.drop_succ_cons,
        show (3949 : Nat) = 3948 + 1 from rfl, List.drop_succ_cons, List.drop_replicate]
    rw [show (4050 : Nat) - 3948 = 102 from rfl, List.nil_append]
    rfl
  have hsplit : splitLongReply c8Reply = [c8Chunk1, c8Chunk2] := by
    unfold splitLongReply
    rw [if_pos (by rw [hlen]; omega)]
    unfold chunks4000
    rw [chunks_eq_of_two c8Reply.data (by rw [hlen]; omega) (by rw [hlen]; omega)
        c8Reply.data.length (Nat.le_refl _)]
    rw [htake, hdrop]
    rfl
  have hc1snoc : c8Chunk1.data =
      (List.replicate 50 'a' ++ ('\n' :: '\n' :: List.replicate 3947 'b')) ++ ['b'] := by
    show List.replicate 50 'a' ++ ('\n' :: '\n' :: List.replicate 3948 'b') = _
    rw [show List.replicate 3948 'b' = List.replicate 3947 'b' ++ ['b'] from by
      rw [show (3948 : Nat) = 3947 + 1 from rfl]
      exact List.replicate_succ' _ _]
    rw [List.append_assoc, List.cons_append, List.cons_append]
  refine ⟨hdata, by rw [hlen]; omega, hsplit, ?_, ?_, ?_, by decide, send_c8Mono, ?_⟩
  · rw [hc1snoc, List.getLast?_concat]
  · rw [show c8Chunk2.data = List.replicate 102 'b' from rfl, List.head?_replicate]
    rfl
  · unfold strEndsWith
    rw [show ("]" : String).data = [']'] from rfl]
    rw [hc1snoc]
    rw [show ([']'] : List Char).length = 1 from rfl]
    rw [drop_len_sub_one]
    decide
  · rw [c8Mono_len]
    omega

/-! ## C9 — command allow-list enforcement -/

/-- C9 (amended): for every `AgentTools` instance and every command whose
first token (or, for `python -m X`, the 3-token form) matches no entry of
the *effective* allow-list — the caller-supplied list when a **non-empty**
one was given, otherwise the fixed default set (`allowed_commands or []`
makes an explicitly supplied empty list indistinguishable from none) —
`execute_command` fails with a hard `ValueError` whose message contains the
rejected prefix, and no subprocess is run. -/
theorem command_allow_list (t : AgentTools) (runner : String → ExecOutcome)
    (command : String) (cwd : Option PyPath) (first : String) (rest : List String)
    (hsplit : pySplitWs command = first :: rest)
    (hnot : ∀ a ∈ (if t.allowed_commands ≠ [] then t.allowed_commands
      else defaultAllowedCommands), cmdStart first rest ≠ a) :
    execute_command t runner command cwd =
      (.error (.valueError ("Command not allowed: " ++ cmdStart first rest)), []) ∧
    (∃ pre post, "Command not allowed: " ++ cmdStart first rest =
      pre ++ cmdStart first rest ++ post) := by
  have hany : ((if t.allowed_commands ≠ [] then t.allowed_commands
      else defaultAllowedCommands).any (fun allowed =>
        cmdStart first rest == allowed ||
          (["python", "node", "poetry", "pip", "npm", "yarn"].contains allowed &&
            cmdStart first rest == allowed))) = false := by
    rw [List.any_eq_false]
    intro a ha
    simp [hnot a ha]
  refine ⟨?_, "Command not allowed: ", "", by simp⟩
  unfold execute_command
  rw [hsplit]
  simp only [hany, Bool.not_false, if_true]

/-- C9 counterexample: with a caller-supplied *empty* allow-list, the
command `git status` — whose first token matches no entry of that supplied
list — is nevertheless accepted and handed to a subprocess, because the
constructor's `allowed_commands or []` erases the distinction between an
explicit empty list and no list, and the empty instance list re-enables
the defaults. -/
theorem command_allow_list_counterexample :
    c9Tools = AgentTools.make ["home", "dev", "ws"] none (some []) ∧
    c9Tools.allowed_commands = [] ∧
    (∀ a ∈ c9Tools.allowed_commands, ("git" : String) ≠ a) ∧
    execute_command c9Tools c9Runner "git status" none =
      (.ok (.finished true "ok" "" 0), ["git status"]) := by
  refine ⟨rfl, rfl, ?_, rfl⟩
  intro a ha
  cases ha

/-- C9 witness: `curl http://x` is rejected with the prefix in the
message and no subprocess, both under the default list and for a
`python -m` form not on the list. -/
theorem command_allow_list_witness :
    (execute_command c1Tools c9Runner "curl http://x" none =
      (.error (.valueError ("Command not allowed: " ++ cmdStart "curl" ["http://x"])), []) ∧
    (∃ pre post, "Command not allowed: " ++ cmdStart "curl" ["http://x"] =
      pre ++ cmdStart "curl" ["http://x"] ++ post)) ∧
    (execute_command c1Tools c9Runner "python -m evil payload" none =
      (.error (.valueError ("Command not allowed: " ++
        cmdStart "python" ["-m", "evil", "payload"])), []) ∧
    (∃ pre post, "Command not allowed: " ++ cmdStart "python" ["-m", "evil", "payload"] =
      pre ++ cmdStart "python" ["-m", "evil", "payload"] ++ post)) :=
  ⟨command_allow_list c1Tools c9Runner "curl http://x" none "curl" ["http://x"]
    (by decide) (by decide),
   command_allow_list c1Tools c9Runner "python -m evil payload" none "python"
    ["-m", "evil", "payload"] (by decide) (by decide)⟩

/-! ## C10 — list_files/get_file_info on allowed external paths -/

theorem exceptBind_error (e : PyError) (f : α → Except PyError β) :
    (Except.error e : Except PyError α).bind f = Except.error e := rfl

theorem exceptBind_ok (a : α) (f : α → Except PyError β) :
    (Except.ok a : Except PyError α).bind f = f a := rfl

theorem exceptSeqBind_error (e : PyError) (f : α → Except PyError β) :
    (Except.error e : Except PyError α) >>= f = Except.error e := rfl

theorem exceptSeqBind_ok (a : α) (f : α → Except PyError β) :
    (Except.ok a : Except PyError α) >>= f = f a := rfl

theorem exceptMap_error (e : PyError) (f : α → β) :
    (Except.error e : Except PyError α).map f = Except.error e := rfl

theorem exceptMap_ok (a : α) (f : α → β) :
    (Except.ok a : Except PyError α).map f = Except.ok (f a) := rfl

theorem entryRender_error_shape (t : AgentTools) (rp : List String) (e : String × FsNode)
    (err : PyError) (h : entryRender t rp e = .error err) : ∃ m, err = .valueError m := by
  obtain ⟨name, node⟩ := e
  cases node with
  | file c =>
    simp only [entryRender, relativeTo] at h
    split at h
    · rw [exceptBind_ok] at h
      cases h
    · rw [exceptBind_error] at h
      cases h
      exact ⟨_, rfl⟩
  | dir =>
    simp only [entryRender, relativeTo] at h
    split at h
    · cases h
    · split at h
      · rw [exceptBind_ok] at h
        cases h
      · rw [exceptBind_error] at h
        cases h
        exact ⟨_, rfl⟩

theorem foldlM_render_error (t : AgentTools) (rp : List String) :
    ∀ (children : List (String × FsNode)) (acc : List String),
    (∃ e ∈ children, ∃ err, entryRender t rp e = .error err) →
    ∃ msg, (children.foldlM (fun acc e =>
      (entryRender t rp e).map (fun o => acc ++ o.toList)) acc :
        Except PyError (List String)) = .error (.valueError msg) := by
  intro children
  induction children with
  | nil =>
    intro acc h
    obtain ⟨e, he, _⟩ := h
    cases he
  | cons x xs ih =>
    intro acc h
    obtain ⟨e, he, err, herr⟩ := h
    cases hx : entryRender t rp x with
    | error e2 =>
      obtain ⟨m, hm⟩ := entryRender_error_shape t rp x e2 hx
      subst hm
      refine ⟨m, ?_⟩
      rw [List.foldlM_cons, hx, exceptMap_error, exceptSeqBind_error]
    | ok o =>
      rcases List.mem_cons.mp he with hh | hh
      · subst hh
        rw [hx] at herr
        cases herr
      · obtain ⟨msg, h2⟩ := ih (acc ++ o.toList) ⟨e, hh, err, herr⟩
        refine ⟨msg, ?_⟩
        rw [List.foldlM_cons, hx, exceptMap_ok, exceptSeqBind_ok]
        exact h2

/-- C10 (amended): with an extra allowed path outside the workspace root,
`read_file` and `write_file` work on validated external paths, but
`list_files` on an external directory that has at least one reportable
entry (a file, or a non-dot subdirectory) whose path is not under the
workspace root raises an uncaught `ValueError` while computing
`relative_to(workspace)`, and `get_file_info` on an existing external file
does the same — only an external directory with no reportable entries
lists successfully. -/
theorem allowed_external_paths_gap (t : AgentTools) (fs : Fs) :
    (∀ (p : PyPath) (name : String) (node : FsNode),
      validatePath t p = .ok (resolveInput t p) →
      fsGet fs (resolveInput t p) = some .dir →
      (name, node) ∈ fsChildren fs (resolveInput t p) →
      ((∃ c, node = .file c) ∨ (node = .dir ∧ pyStartsWith name "." = false)) →
      startsList t.workspace_path (resolveInput t p ++ [name]) = false →
      ∃ msg, list_files t fs p = .error (.valueError msg)) ∧
    (∀ (p : PyPath) (c : String),
      validatePath t p = .ok (resolveInput t p) →
      fsGet fs (resolveInput t p) = some (.file c) →
      startsList t.workspace_path (resolveInput t p) = false →
      ∃ msg, get_file_info t fs p = .error (.valueError msg)) ∧
    (∀ (p : PyPath) (c : String),
      validatePath t p = .ok (resolveInput t p) →
      fsGet fs (resolveInput t p) = some (.file c) →
      read_file t fs p = .ok c) ∧
    (∀ (p : PyPath) (content : String),
      validatePath t p = .ok (resolveInput t p) →
      write_file t fs p content = .ok ("File written: " ++ renderAbs (resolveInput t p),
        fsSet fs (resolveInput t p) (.file content))) := by
  refine ⟨?_, ?_, ?_, ?_⟩
  · intro p name node hval hdir hmem hkind hout
    have herr : ∃ err, entryRender t (resolveInput t p) (name, node) = .error err := by
      rcases hkind with ⟨c, hc⟩ | ⟨hd, hdot⟩
      · subst hc
        refine ⟨.valueError (renderAbs (resolveInput t p ++ [name]) ++
          " is not in the subpath of " ++ renderAbs t.workspace_path), ?_⟩
        simp only [entryRender, relativeTo, hout, Bool.false_eq_true, if_false]
        rw [exceptBind_error]
      · subst hd
        refine ⟨.valueError (renderAbs (resolveInput t p ++ [name]) ++
          " is not in the subpath of " ++ renderAbs t.workspace_path), ?_⟩
        simp only [entryRender, relativeTo, hout, hdot, Bool.false_eq_true, if_false]
        rw [exceptBind_error]
    obtain ⟨msg, hfold⟩ := foldlM_render_error t (resolveInput t p)
      (fsChildren fs (resolveInput t p)) [] ⟨(name, node), hmem, herr⟩
    refine ⟨msg, ?_⟩
    unfold list_files
    rw [hval, exceptBind_ok, hdir, hfold]
    rw [exceptBind_error]
  · intro p c hval hfile hout
    refine ⟨renderAbs (resolveInput t p) ++ " is not in the subpath of " ++
      renderAbs t.workspace_path, ?_⟩
    unfold get_file_info
    rw [hval, exceptBind_ok, hfile]
    simp only [relativeTo, hout, Bool.false_eq_true, if_false]
    rw [exceptBind_error]
  · intro p c hval hfile
    unfold read_file
    rw [hval, exceptBind_ok, hfile]
  · intro p content hval
    unfold write_file
    rw [hval, exceptBind_ok]

/-- C10 counterexample: listing an *empty* directory inside the external
allowed path does not raise — it returns an empty listing — so the claim's
universal "list_files on a directory inside that allowed path raises" is
too strong. -/
theorem allowed_external_empty_dir_lists :
    c10Tools.workspace_path = ["home", "ws"] ∧
    c10Tools.allowed_paths = [["ext"]] ∧
    startsList c10Tools.workspace_path ["ext", "sub"] = false ∧
    validatePath c10Tools ⟨true, ["ext", "sub"]⟩ = .ok ["ext", "sub"] ∧
    list_files c10Tools c10Fs ⟨true, ["ext", "sub"]⟩ = .ok [] := by
  refine ⟨rfl, rfl, by decide, rfl, rfl⟩

/-- C10 witness: on the concrete external directory `/ext` (which contains
a file and a subdirectory), `list_files` and `get_file_info` raise while
`read_file` and `write_file` succeed. -/
theorem allowed_external_paths_gap_witness :
    (∃ msg, list_files c10Tools c10Fs ⟨true, ["ext"]⟩ = .error (.valueError msg)) ∧
    (∃ msg, get_file_info c10Tools c10Fs ⟨true, ["ext", "data.txt"]⟩ =
      .error (.valueError msg)) ∧
    read_file c10Tools c10Fs ⟨true, ["ext", "data.txt"]⟩ = .ok "hello" ∧
    write_file c10Tools c10Fs ⟨true, ["ext", "new.txt"]⟩ "x" =
      .ok ("File written: " ++ renderAbs (resolveInput c10Tools ⟨true, ["ext", "new.txt"]⟩),
        fsSet c10Fs (resolveInput c10Tools ⟨true, ["ext", "new.txt"]⟩) (.file "x")) :=
  ⟨(allowed_external_paths_gap c10Tools c10Fs).1 ⟨true, ["ext"]⟩ "sub" .dir
      rfl rfl (by decide) (.inr ⟨rfl, by decide⟩) (by decide),
   (allowed_external_paths_gap c10Tools c10Fs).2.1 ⟨true, ["ext", "data.txt"]⟩ "hello"
      rfl rfl (by decide),
   (allowed_external_paths_gap c10Tools c10Fs).2.2.1 ⟨true, ["ext", "data.txt"]⟩ "hello"
      rfl rfl,
   (allowed_external_paths_gap c10Tools c10Fs).2.2.2 ⟨true, ["ext", "new.txt"]⟩ "x"
      rfl⟩
